import Mathlib

/-!
# Verification of the goblog commit-driven synchronization engine

Shallow embedding of the goblog blog backend (Go), covering:

* the path classifier (`isPostFile`, `extractPostID`, `isImageFile`,
  from `blog/application`, regexes `^posts/(\d+)-.*\.md$` and
  `^images/.*\.(jpg|jpeg|png|gif|svg|webp|avif)$`);
* the commit change analyzer (`handleCommitFile`, `analyzeCommitFiles`);
* the persistence layer (`SavePost`, `GetPost`, `Publish`, `Unpublish`,
  `SaveImage`, `GetImage`, `DeleteImage`, `RunInTransaction`) over an
  explicit store state (posts table, images table, filesystem);
* the sync orchestrator (`processBranch`, `upsertPosts`, `processImages`,
  `processPostFile`, `processImageFile`, `HandlePushEvent`).

Go `time.Time` values are modelled as `Nat`, with `0` standing for the Go
zero time (`IsZero`).  SQL `NULL`-able timestamp columns are `Option Nat`.
Go byte slices are `List Nat`.  Go errors are the strings produced by
`fmt.Errorf`.  SHA-256 hashing and the external collaborators (GitHub
client, markdown renderer) are opaque at the interface boundary and appear
as function-valued parameters of the environment.
-/

namespace Goblog

/-! ## Path classifier (blog/application, `postPathRegex` / `imagePathRegex`) -/

/-- Membership test for the Go regex `^posts/(\d+)-.*\.md$` on the character
list of a path.  `\d` is the ASCII digit class and `.` does not match a
newline, so the path must be `posts/` ++ digits (at least one) ++ `-` ++
middle ++ `.md` with the middle free of newline characters. -/
def isPostFileChars (cs : List Char) : Bool :=
  "posts/".data.isPrefixOf cs &&
    (let rest := cs.drop 6
     let ds := rest.takeWhile Char.isDigit
     let afterDigits := rest.dropWhile Char.isDigit
     !ds.isEmpty &&
       match afterDigits with
       | '-' :: body =>
           ".md".data.isSuffixOf body &&
             (body.take (body.length - 3)).all (fun c => c != '\n')
       | _ => false)

/-- `isPostFile` from the application package: match against
`^posts/(\d+)-.*\.md$`. -/
def isPostFile (path : String) : Bool :=
  isPostFileChars path.data

/-- `extractPostID` from the application package: the first capture group
(the maximal digit run after `posts/`) when the post regex matches, the
empty string otherwise. -/
def extractPostID (path : String) : String :=
  if isPostFile path then
    String.mk ((path.data.drop 6).takeWhile Char.isDigit)
  else ""

/-- Extension alternatives of the image regex. -/
def imageExts : List (List Char) :=
  ["jpg".data, "jpeg".data, "png".data, "gif".data, "svg".data,
   "webp".data, "avif".data]

/-- Membership test for the Go regex
`^images/.*\.(jpg|jpeg|png|gif|svg|webp|avif)$`: the path must be
`images/` ++ middle ++ `.` ++ ext with the middle free of newlines. -/
def isImageFileChars (cs : List Char) : Bool :=
  "images/".data.isPrefixOf cs &&
    (let rest := cs.drop 7
     imageExts.any (fun ext =>
       let suffix := '.' :: ext
       suffix.isSuffixOf rest &&
         (rest.take (rest.length - suffix.length)).all (fun c => c != '\n')))

/-- `isImageFile` from the application package. -/
def isImageFile (path : String) : Bool :=
  isImageFileChars path.data

/-! ## Association-list maps and string sets

Go `map[string]T` is modelled as an association list with unique keys and
the `set.Set[string]` utility as a duplicate-free list of strings.  Map
iteration order in Go is unspecified; the list order here is one concrete
linearization of it. -/

/-- Lookup in a Go map. -/
def dbLookup {α : Type} (k : String) : List (String × α) → Option α
  | [] => none
  | (k', v) :: rest => if k' = k then some v else dbLookup k rest

/-- Unconditional map write `m[k] = v`. -/
def dbInsert {α : Type} (k : String) (v : α) :
    List (String × α) → List (String × α)
  | [] => [(k, v)]
  | (k', v') :: rest =>
      if k' = k then (k, v) :: rest else (k', v') :: dbInsert k v rest

/-- Go `delete(m, k)` (also `DELETE FROM ... WHERE key = k`). -/
def dbDelete {α : Type} (k : String) (l : List (String × α)) :
    List (String × α) :=
  l.filter (fun e => e.1 != k)

/-- SQL `UPDATE ... WHERE key = k`: updates the row if present, silently
touches zero rows otherwise. -/
def dbUpdate {α : Type} (k : String) (f : α → α) :
    List (String × α) → List (String × α)
  | [] => []
  | (k', v') :: rest =>
      if k' = k then (k', f v') :: rest else (k', v') :: dbUpdate k f rest

/-- The analyzer's guarded write `if _, exists := m[k]; !exists { m[k] = v }`
(first writer wins). -/
def mapInsertIfAbsent {α : Type} (k : String) (v : α)
    (l : List (String × α)) : List (String × α) :=
  match dbLookup k l with
  | some _ => l
  | none => l ++ [(k, v)]

/-- `set.Add`. -/
def setAdd (x : String) (s : List String) : List String :=
  if x ∈ s then s else s ++ [x]

/-- `set.Remove`. -/
def setRemove (x : String) (s : List String) : List String :=
  s.filter (fun y => y != x)

/-! ## Commit change analyzer (blog/application `handleCommitFile`,
`analyzeCommitFiles`) -/

/-- One entry of a commit's file changelist
(`github.CommitFile`: `GetFilename`, `GetStatus`, `GetPreviousFilename`;
the previous filename is the empty string unless the file was renamed). -/
structure CommitFile where
  filename : String
  status : String
  previousFilename : String
  deriving Repr, DecidableEq

/-- A resolved commit (`github.RepositoryCommit`): its SHA, its author
date (`GetCommit().GetAuthor().GetDate()`), and its file changelist. -/
structure Commit where
  sha : String
  authorDate : Nat
  files : List CommitFile
  deriving Repr, DecidableEq

/-- The analyzer's accumulated state: the two to-process maps
(path ↦ representative commit) and the two removal sets
(`commitAnalysisResult`). -/
structure AnalyzerState where
  posts : List (String × Commit)
  images : List (String × Commit)
  postsToRemove : List String
  imagesToRemove : List String
  deriving Repr, DecidableEq

/-- The empty analyzer state the fold starts from. -/
def emptyAnalyzerState : AnalyzerState :=
  { posts := [], images := [], postsToRemove := [], imagesToRemove := [] }

/-- `handleCommitFile` from the application package, translated branch by
branch.  Each `let st := ...` step mirrors one sequential mutation of the
Go maps/sets. -/
def handleCommitFile (path status previousPath : String)
    (fullCommit : Commit) (st : AnalyzerState) : AnalyzerState :=
  let currentIsPost := isPostFile path
  let previousIsPost := isPostFile previousPath
  let currentIsImage := isImageFile path
  let previousIsImage := isImageFile previousPath
  if !currentIsPost && !previousIsPost && !currentIsImage && !previousIsImage
  then st
  else if status = "added" || status = "modified" then
    let st := if currentIsPost then
        { st with posts := mapInsertIfAbsent path fullCommit st.posts,
                  postsToRemove := setRemove path st.postsToRemove }
      else st
    let st := if currentIsImage then
        { st with images := mapInsertIfAbsent path fullCommit st.images,
                  imagesToRemove := setRemove path st.imagesToRemove }
      else st
    st
  else if status = "removed" then
    let st := if currentIsPost then
        { st with
            postsToRemove :=
              if (dbLookup path st.posts).isNone then
                setAdd path st.postsToRemove
              else st.postsToRemove,
            posts := dbDelete path st.posts }
      else st
    let st := if currentIsImage then
        { st with
            imagesToRemove :=
              if (dbLookup path st.images).isNone then
                setAdd path st.imagesToRemove
              else st.imagesToRemove,
            images := dbDelete path st.images }
      else st
    st
  else if status = "renamed" then
    let st := if previousIsPost then
        { st with
            postsToRemove :=
              if (dbLookup previousPath st.posts).isNone then
                setAdd previousPath st.postsToRemove
              else st.postsToRemove,
            posts := dbDelete previousPath st.posts }
      else st
    let st := if currentIsPost then
        { st with posts := mapInsertIfAbsent path fullCommit st.posts,
                  postsToRemove := setRemove previousPath st.postsToRemove }
      else st
    let st := if previousIsImage then
        { st with
            imagesToRemove :=
              if (dbLookup previousPath st.images).isNone then
                setAdd previousPath st.imagesToRemove
              else st.imagesToRemove,
            images := dbDelete previousPath st.images }
      else st
    let st := if currentIsImage then
        { st with images := mapInsertIfAbsent path fullCommit st.images,
                  imagesToRemove := setRemove path st.imagesToRemove }
      else st
    st
  else st

/-- The inner loop of `analyzeCommitFiles`: fold `handleCommitFile` over
one resolved commit's file changelist. -/
def handleFiles (fullCommit : Commit) (st : AnalyzerState) : AnalyzerState :=
  fullCommit.files.foldl
    (fun st f => handleCommitFile f.filename f.status f.previousFilename
      fullCommit st) st

/-- The analyzer's fold flattened across commit boundaries: each batch
record is a file-change entry paired with the resolved commit it came
from.  `analyzeCommitFiles` applies exactly this fold to the concatenated
changelists of the batch. -/
def foldHandle : List (CommitFile × Commit) → AnalyzerState → AnalyzerState
  | [], st => st
  | r :: rest, st =>
      foldHandle rest
        (handleCommitFile r.1.filename r.1.status r.1.previousFilename r.2 st)

/-- The commit loop of `analyzeCommitFiles`: resolve each commit summary
through the source repository (`GetCommit`); an I/O failure aborts the
whole analysis with no partial result. -/
def analyzeLoop (getCommit : String → Except String Commit) :
    List Commit → AnalyzerState → Except String AnalyzerState
  | [], st => .ok st
  | c :: rest, st =>
    match getCommit c.sha with
    | .error e =>
        .error ("failed to get full commit " ++ c.sha ++ ": " ++ e)
    | .ok fullCommit => analyzeLoop getCommit rest (handleFiles fullCommit st)

/-- `analyzeCommitFiles` from the application package: fold all commits of
the batch starting from empty maps and sets. -/
def analyzeCommitFiles (getCommit : String → Except String Commit)
    (commits : List Commit) : Except String AnalyzerState :=
  analyzeLoop getCommit commits emptyAnalyzerState

/-! ## Data model (blog/domain, persistence row types, store state)

The store state gathers what the Content Store owns: the `posts` table
(keyed by post ID), the `images` table (keyed by repository path) and the
local filesystem (path ↦ file bytes).  Timestamps in rows are the nullable
SQL columns. -/

/-- A row of the `posts` table. -/
structure PostRow where
  id : String
  title : String
  snippet : String
  htmlPath : String
  updatedAt : Option Nat
  publishedAt : Option Nat
  createdAt : Option Nat
  deriving Repr, DecidableEq

/-- A row of the `images` table (content bytes are not stored in the DB). -/
structure ImageRow where
  path : String
  hash : String
  updatedAt : Option Nat
  createdAt : Option Nat
  deriving Repr, DecidableEq

/-- The persistent state owned by the Content Store. -/
structure Store where
  posts : List (String × PostRow)
  images : List (String × ImageRow)
  files : List (String × List Nat)
  deriving Repr, DecidableEq

/-- `domain.Post`.  `Nat` timestamps, `0` = Go zero time. -/
structure Post where
  id : String
  title : String
  snippet : String
  htmlPath : String
  htmlContent : List Nat
  updatedAt : Nat
  publishedAt : Nat
  createdAt : Nat
  deriving Repr, DecidableEq

/-- `domain.Image`. -/
structure Image where
  path : String
  hash : String
  content : List Nat
  updatedAt : Nat
  createdAt : Nat
  deriving Repr, DecidableEq

/-- Output of the markdown renderer collaborator
(`markdown.Render(bytes)`). -/
structure RenderResult where
  title : String
  snippet : String
  htmlContent : List Nat
  deriving Repr, DecidableEq

/-- The environment of external collaborators and injected failures: the
GitHub source repository, the renderer, SHA-256 (opaque), per-path
`os.WriteFile` failures, per-ID `ExecContext` failures of
`Publish`/`Unpublish`, the current wall clock (`time.Now`) and the
configured main branch name. -/
structure Env where
  getCommitsSince : String → Nat → Except String (List Commit)
  getCommitsInRange : String → String → Except String (List Commit)
  getCommit : String → Except String Commit
  getFileContents : String → String → Except String (List Nat)
  render : List Nat → Except String RenderResult
  calculateHash : List Nat → String
  writeFileFails : String → Bool
  publishFails : String → Bool
  unpublishFails : String → Bool
  now : Nat
  mainBranchName : String

/-! ## Transactional persistence (shared/db/tx.go, persistence package) -/

/-- How `SavePost`/`SaveImage` bind a Go `time.Time` into a nullable SQL
parameter: the zero time becomes NULL. -/
def timeToSql (t : Nat) : Option Nat :=
  if t = 0 then none else some t

/-- `db.RunInTransaction`: when the context already carries a transaction
(`inTx`), reuse it and delegate commit/rollback to the outer caller;
otherwise begin a transaction, and on error roll back the database tables
while filesystem effects performed inside `fn` are left as they are (the
transaction spans the database only).  All call sites in the service pass
contexts that carry no ambient transaction, so they instantiate
`inTx = false`. -/
def runInTransaction (inTx : Bool) (s : Store)
    (fn : Store → Store × Option String) : Store × Option String :=
  if inTx then fn s
  else
    match fn s with
    | (s2, some e) => ({ s2 with posts := s.posts, images := s.images }, some e)
    | (s2, none) => (s2, none)

/-- The `upsertPostQuery` SQL: insert, or on ID conflict update the content
columns and set `created_at = COALESCE(posts.created_at,
excluded.created_at)`. -/
def upsertPostRow (table : List (String × PostRow)) (r : PostRow) :
    List (String × PostRow) :=
  match dbLookup r.id table with
  | none => table ++ [(r.id, r)]
  | some _ =>
      dbUpdate r.id (fun old =>
        { old with
            title := r.title, snippet := r.snippet, htmlPath := r.htmlPath,
            updatedAt := r.updatedAt, publishedAt := r.publishedAt,
            createdAt :=
              match old.createdAt with
              | some t => some t
              | none => r.createdAt }) table

/-- Go `path/filepath.Base`. -/
def filepathBase (p : String) : String :=
  if p = "" then "."
  else
    let cs := (p.data.reverse.dropWhile (fun c => c == '/')).reverse
    let tail := (cs.reverse.takeWhile (fun c => c != '/')).reverse
    if tail.isEmpty then "/" else String.mk tail

/-- `filepath.Join(postDir, name)` with `postDir = "./posts"`; `Join`
cleans the leading `./`. -/
def postLocalPath (name : String) : String := "posts/" ++ name

/-- `filepath.Join(imageDir, name)` with `imageDir = "./images"`. -/
def imageLocalPath (name : String) : String := "images/" ++ name

/-- `SQLitePostRepository.SavePost`: validate, then inside one transaction
upsert the row first and only then write the HTML file; a failing file
write (injected through `env.writeFileFails`) rolls the row write back and
surfaces the error. -/
def savePost (env : Env) (s : Store) (p : Post) : Store × Option String :=
  if p.id = "" then (s, some "post ID cannot be empty")
  else
    runInTransaction false s (fun st =>
      let row : PostRow :=
        { id := p.id, title := p.title, snippet := p.snippet,
          htmlPath := p.htmlPath,
          updatedAt := timeToSql p.updatedAt,
          publishedAt := timeToSql p.publishedAt,
          createdAt := timeToSql p.createdAt }
      let st1 := { st with posts := upsertPostRow st.posts row }
      let localPath := postLocalPath p.htmlPath
      if env.writeFileFails localPath then
        (st1, some "failed to write post file")
      else
        ({ st1 with files := dbInsert localPath p.htmlContent st1.files }, none))

/-- Row-to-domain conversion of `postRow.toDomain`: NULL timestamps become
the zero time; HTML content is not read back from the database. -/
def rowToDomain (r : PostRow) : Post :=
  { id := r.id, title := r.title, snippet := r.snippet, htmlPath := r.htmlPath,
    htmlContent := [],
    updatedAt := r.updatedAt.getD 0, publishedAt := r.publishedAt.getD 0,
    createdAt := r.createdAt.getD 0 }

/-- `SQLitePostRepository.GetPost`.  A missing row yields the formatted
error string `post not found: <id>`; a failing database read (`dbOk =
false`, e.g. connection loss) yields a different formatted error.  Both
are plain `fmt.Errorf` strings of type `error` in the source. -/
def getPost (dbOk : Bool) (s : Store) (id : String) : Except String Post :=
  if id = "" then .error "post ID cannot be empty"
  else if !dbOk then .error "failed to get post: driver failure"
  else
    match dbLookup id s.posts with
    | none => .error ("post not found: " ++ id)
    | some row => .ok (rowToDomain row)

/-- `SQLitePostRepository.Publish`: `UPDATE posts SET published_at = ?,
updated_at = ? WHERE id = ?` — zero matched rows are not an error. -/
def publish (env : Env) (s : Store) (postID : String) : Store × Option String :=
  if postID = "" then (s, some "post ID cannot be empty")
  else if env.publishFails postID then (s, some "failed to publish post")
  else
    let posts := dbUpdate postID
      (fun r => { r with publishedAt := some env.now,
                         updatedAt := some env.now }) s.posts
    ({ s with posts := posts }, none)

/-- `SQLitePostRepository.Unpublish`: `UPDATE posts SET published_at =
NULL, updated_at = ? WHERE id = ?` — zero matched rows are not an error. -/
def unpublish (env : Env) (s : Store) (postID : String) : Store × Option String :=
  if postID = "" then (s, some "post ID cannot be empty")
  else if env.unpublishFails postID then (s, some "failed to unpublish post")
  else
    let posts := dbUpdate postID
      (fun r => { r with publishedAt := none,
                         updatedAt := some env.now }) s.posts
    ({ s with posts := posts }, none)

/-- The `upsertImageQuery` SQL, with the same `COALESCE` on `created_at`. -/
def upsertImageRow (table : List (String × ImageRow)) (r : ImageRow) :
    List (String × ImageRow) :=
  match dbLookup r.path table with
  | none => table ++ [(r.path, r)]
  | some _ =>
      dbUpdate r.path (fun old =>
        { old with
            hash := r.hash, updatedAt := r.updatedAt,
            createdAt :=
              match old.createdAt with
              | some t => some t
              | none => r.createdAt }) table

/-- `SQLiteImageRepository.SaveImage`: upsert the row keyed by the full
repository path, then write the bytes to `imageDir/filepath.Base(path)`;
a failing write rolls the row back. -/
def saveImage (env : Env) (s : Store) (img : Image) : Store × Option String :=
  if img.path = "" then (s, some "image path cannot be empty")
  else
    runInTransaction false s (fun st =>
      let row : ImageRow :=
        { path := img.path, hash := img.hash,
          updatedAt := timeToSql img.updatedAt,
          createdAt := timeToSql img.createdAt }
      let st1 := { st with images := upsertImageRow st.images row }
      let localPath := imageLocalPath (filepathBase img.path)
      if env.writeFileFails localPath then
        (st1, some "failed to write image file")
      else
        ({ st1 with files := dbInsert localPath img.content st1.files }, none))

/-- `imageRow.toDomain`. -/
def imageRowToDomain (r : ImageRow) : Image :=
  { path := r.path, hash := r.hash, content := [],
    updatedAt := r.updatedAt.getD 0, createdAt := r.createdAt.getD 0 }

/-- `SQLiteImageRepository.GetImage`. -/
def getImage (s : Store) (path : String) : Except String Image :=
  if path = "" then .error "image path cannot be empty"
  else
    match dbLookup path s.images with
    | none => .error ("image not found: " ++ path)
    | some row => .ok (imageRowToDomain row)

/-- `SQLiteImageRepository.DeleteImage`: delete the row keyed by the full
path, then remove `imageDir/filepath.Base(path)`; a missing file is not an
error (idempotent delete). -/
def deleteImage (s : Store) (path : String) : Store × Option String :=
  if path = "" then (s, some "image path cannot be empty")
  else
    runInTransaction false s (fun st =>
      let st1 := { st with images := dbDelete path st.images }
      ({ st1 with
          files := dbDelete (imageLocalPath (filepathBase path)) st1.files },
        none))

/-! ## Sync orchestrator (blog/application `PostService`)

Workers dispatched with `wg.Go` run concurrently in Go; each unit touches
its own path/ID and observes the shared store.  The embedding applies the
units sequentially in dispatch order, one concrete linearization of the
schedule.  The `attempted` traces record which per-file units the
orchestrator handed off for processing, mirroring the per-unit dispatch
(and the per-unit log lines) of the source. -/

/-- `commitFileInfo` from the application package. -/
structure CommitFileInfo where
  path : String
  createdAt : Nat
  modifiedAt : Nat
  deriving Repr, DecidableEq

/-- The caller-side `createdAt` selection appearing in both `upsertPosts`
and `HandlePushEvent`:
`createdAt := modifiedAt; if err == nil && existingPost != nil { createdAt
= existingPost.CreatedAt }` (`GetPost` never returns a nil post together
with a nil error). -/
def chooseCreatedAt (lookupResult : Except String Post) (modifiedAt : Nat) :
    Nat :=
  match lookupResult with
  | .ok existing => existing.createdAt
  | .error _ => modifiedAt

/-- `processPostFile`: fetch the bytes at the exact commit SHA, render,
build the `domain.Post` (publish timestamp left at the zero value), save,
and publish only when on the main branch.  Every failure is logged and
abandons this single unit, leaving the store as that stage left it. -/
def processPostFile (env : Env) (s : Store) (postID : String)
    (fileInfo : CommitFileInfo) (commitSHA : String) (isMainBranch : Bool) :
    Store :=
  match env.getFileContents fileInfo.path commitSHA with
  | .error _ => s
  | .ok markdownContent =>
    match env.render markdownContent with
    | .error _ => s
    | .ok result =>
      let htmlFilename := postID ++ ".html"
      let post : Post :=
        { id := postID, title := result.title, snippet := result.snippet,
          htmlPath := htmlFilename, htmlContent := result.htmlContent,
          updatedAt := fileInfo.modifiedAt, publishedAt := 0,
          createdAt := fileInfo.createdAt }
      match savePost env s post with
      | (s1, some _) => s1
      | (s1, none) =>
          if isMainBranch then (publish env s1 postID).1 else s1

/-- `processImageFile`: fetch, hash, and skip entirely when an existing
record at the same path carries the same hash; otherwise save with fresh
timestamps. -/
def processImageFile (env : Env) (s : Store) (imagePath commitSHA : String) :
    Store :=
  match env.getFileContents imagePath commitSHA with
  | .error _ => s
  | .ok imageContent =>
    let hash := env.calculateHash imageContent
    let skip :=
      match getImage s imagePath with
      | .ok existingImage => existingImage.hash == hash
      | .error _ => false
    if skip then s
    else
      let img : Image :=
        { path := imagePath, hash := hash, content := imageContent,
          updatedAt := env.now, createdAt := env.now }
      (saveImage env s img).1

/-- `removeImage`: delete via the repository; a failure is only logged. -/
def removeImage (s : Store) (imagePath : String) : Store :=
  (deleteImage s imagePath).1

/-- `upsertPosts` (catch-up path): for every entry of the to-process map,
extract the post ID (silently skipping non-matching paths), look up the
existing post to preserve its creation time, and process the file
synchronously.  Also returns the paths handed to `processPostFile`. -/
def upsertPostsLoop (env : Env) (isMainBranch : Bool) (s : Store) :
    List (String × Commit) → Store × List String
  | [] => (s, [])
  | pc :: rest =>
    let path := pc.1
    let commit := pc.2
    let postID := extractPostID path
    if postID = "" then upsertPostsLoop env isMainBranch s rest
    else
      let modifiedAt := commit.authorDate
      let createdAt := chooseCreatedAt (getPost true s postID) modifiedAt
      let fileInfo : CommitFileInfo :=
        { path := path, createdAt := createdAt, modifiedAt := modifiedAt }
      let s1 := processPostFile env s postID fileInfo commit.sha isMainBranch
      let r := upsertPostsLoop env isMainBranch s1 rest
      (r.1, path :: r.2)

/-- `upsertPosts` proper: derive the main-branch flag from the branch name
as the source does, then run the loop. -/
def upsertPosts (env : Env) (s : Store)
    (filesToProcess : List (String × Commit)) (branchName : String) :
    Store × List String :=
  let ref := "refs/heads/" ++ branchName
  let isMainBranch := ref == "refs/heads/" ++ env.mainBranchName
  upsertPostsLoop env isMainBranch s filesToProcess

/-- `processImages`: process each image of the to-process map
synchronously. -/
def processImagesLoop (env : Env) (s : Store) :
    List (String × Commit) → Store × List String
  | [] => (s, [])
  | pc :: rest =>
    let s1 := processImageFile env s pc.1 pc.2.sha
    let r := processImagesLoop env s1 rest
    (r.1, pc.1 :: r.2)

/-- The removal loop at the top of `processBranch`:
`for _, f := range postsToRemove { if err := Unpublish(f); err != nil {
return err } }` — note it passes the file path `f` to `Unpublish` and
returns on the first error, abandoning the remaining paths. -/
def unpublishLoop (env : Env) (s : Store) :
    List String → Store × Option String × List String
  | [] => (s, none, [])
  | f :: rest =>
    match unpublish env s f with
    | (s1, some e) => (s1, some e, [f])
    | (s1, none) =>
      match unpublishLoop env s1 rest with
      | (s2, r, tr) => (s2, r, f :: tr)

/-- The image-removal loop of `processBranch` (failures only logged). -/
def removeImagesLoop (s : Store) : List String → Store × List String
  | [] => (s, [])
  | p :: rest =>
    let s1 := removeImage s p
    let r := removeImagesLoop s1 rest
    (r.1, p :: r.2)

/-- Result of one catch-up branch pass: final store, the error returned by
`processBranch`, and the units attempted before it returned. -/
structure BranchRunResult where
  store : Store
  err : Option String
  attempted : List String
  deriving Repr, DecidableEq

/-- `processBranch`: list the commits since the high-water mark, analyze
them, unpublish removed posts (aborting the branch on the first unpublish
error), remove images, then upsert posts and images synchronously. -/
def processBranch (env : Env) (s : Store) (lastUpdatedAt : Nat)
    (branchName : String) : BranchRunResult :=
  match env.getCommitsSince branchName lastUpdatedAt with
  | .error e =>
      { store := s,
        err := some ("failed to get commits for branch " ++ branchName
          ++ ": " ++ e),
        attempted := [] }
  | .ok commits =>
    if commits.isEmpty then { store := s, err := none, attempted := [] }
    else
      match analyzeCommitFiles env.getCommit commits with
      | .error e =>
          { store := s,
            err := some ("failed to analyze commits for branch " ++ branchName
              ++ ": " ++ e),
            attempted := [] }
      | .ok analysisResult =>
        match unpublishLoop env s analysisResult.postsToRemove with
        | (s1, some e, tr) => { store := s1, err := some e, attempted := tr }
        | (s1, none, tr1) =>
          let r2 := removeImagesLoop s1 analysisResult.imagesToRemove
          let r3 := upsertPosts env r2.1 analysisResult.posts branchName
          let r4 := processImagesLoop env r3.1 analysisResult.images
          { store := r4.1, err := none,
            attempted := tr1 ++ r2.2 ++ r3.2 ++ r4.2 }

/-- The fields of `github.PushEvent` the handler reads. -/
structure PushEvent where
  before : String
  after : String
  ref : String
  deriving Repr, DecidableEq

/-- The all-zero SHA marking a branch-creation push. -/
def zeroSHA : String := "0000000000000000000000000000000000000000"

/-- Commit-range resolution at the top of `HandlePushEvent`: a normal push
fetches the `before...after` range, a new branch fetches just the head
commit. -/
def resolvePushCommits (env : Env) (evt : PushEvent) :
    Except String (List Commit) :=
  if evt.before != "" && evt.before != zeroSHA then
    env.getCommitsInRange evt.before evt.after
  else
    match env.getCommit evt.after with
    | .error e => .error ("failed to get commit " ++ evt.after ++ ": " ++ e)
    | .ok headCommit => .ok [headCommit]

/-- One dispatched post-upsert unit of `HandlePushEvent` (ID extraction and
`createdAt` lookup happen before dispatch, `processPostFile` inside the
worker). -/
def pushUpsertUnit (env : Env) (s : Store) (filePath : String)
    (commit : Commit) (isMainBranch : Bool) : Store :=
  let postID := extractPostID filePath
  if postID = "" then s
  else
    let modifiedAt := commit.authorDate
    let createdAt := chooseCreatedAt (getPost true s postID) modifiedAt
    processPostFile env s postID
      { path := filePath, createdAt := createdAt, modifiedAt := modifiedAt }
      commit.sha isMainBranch

/-- `HandlePushEvent`: resolve the commit range, analyze it once, and
dispatch the units.  Removals (posts unpublished by file path, images
deleted) are dispatched only when the pushed ref is the main branch;
upserts are dispatched for every branch with `isMainBranch` deciding the
extra publish.  Errors after dispatch are only logged inside the units;
the handler itself errs only on range resolution or analysis. -/
def handlePushEvent (env : Env) (s : Store) (evt : PushEvent) :
    Store × Option String :=
  match resolvePushCommits env evt with
  | .error e => (s, some e)
  | .ok commits =>
    match analyzeCommitFiles env.getCommit commits with
    | .error e => (s, some ("failed to analyze commits: " ++ e))
    | .ok analysisResult =>
      let isMainBranch := evt.ref == "refs/heads/" ++ env.mainBranchName
      let s1 :=
        if isMainBranch then
          let sA := analysisResult.postsToRemove.foldl
            (fun st p => (unpublish env st p).1) s
          analysisResult.imagesToRemove.foldl
            (fun st p => removeImage st p) sA
        else s
      let s2 := analysisResult.posts.foldl
        (fun st pc => pushUpsertUnit env st pc.1 pc.2 isMainBranch) s1
      let s3 := analysisResult.images.foldl
        (fun st pc => processImageFile env st pc.1 pc.2.sha) s2
      (s3, none)

/-! ## Lemmas about the map and set primitives -/

theorem dbLookup_nil {α : Type} (k : String) :
    dbLookup (α := α) k [] = none := rfl

theorem dbLookup_dbInsert_self {α : Type} (k : String) (v : α)
    (l : List (String × α)) : dbLookup k (dbInsert k v l) = some v := by
  induction l with
  | nil => simp [dbInsert, dbLookup]
  | cons e rest ih =>
    by_cases h : e.1 = k
    · cases e; simp_all [dbInsert, dbLookup]
    · cases e; simp_all [dbInsert, dbLookup]

theorem dbLookup_dbInsert_ne {α : Type} (q k : String) (v : α)
    (l : List (String × α)) (h : q ≠ k) :
    dbLookup q (dbInsert k v l) = dbLookup q l := by
  induction l with
  | nil => simp [dbInsert, dbLookup, Ne.symm h]
  | cons e rest ih =>
    by_cases he : e.1 = k
    · cases e; simp_all [dbInsert, dbLookup, Ne.symm h]
    · cases e; simp_all [dbInsert, dbLookup]

theorem dbLookup_dbUpdate_self {α : Type} (k : String) (f : α → α)
    (l : List (String × α)) :
    dbLookup k (dbUpdate k f l) = (dbLookup k l).map f := by
  induction l with
  | nil => simp [dbUpdate, dbLookup]
  | cons e rest ih =>
    by_cases h : e.1 = k
    · cases e; simp_all [dbUpdate, dbLookup]
    · cases e; simp_all [dbUpdate, dbLookup]

theorem dbLookup_dbUpdate_ne {α : Type} (q k : String) (f : α → α)
    (l : List (String × α)) (h : q ≠ k) :
    dbLookup q (dbUpdate k f l) = dbLookup q l := by
  induction l with
  | nil => simp [dbUpdate]
  | cons e rest ih =>
    by_cases he : e.1 = k
    · cases e; simp_all [dbUpdate, dbLookup, Ne.symm h]
    · cases e; simp_all [dbUpdate, dbLookup]

theorem dbLookup_dbDelete_self {α : Type} (k : String)
    (l : List (String × α)) : dbLookup k (dbDelete k l) = none := by
  induction l with
  | nil => simp [dbDelete, dbLookup]
  | cons e rest ih =>
    by_cases h : e.1 = k
    · cases e; simp_all [dbDelete, dbLookup]
    · cases e; simp_all [dbDelete, dbLookup]

theorem dbLookup_dbDelete_ne {α : Type} (q k : String)
    (l : List (String × α)) (h : q ≠ k) :
    dbLookup q (dbDelete k l) = dbLookup q l := by
  induction l with
  | nil => simp [dbDelete, dbLookup]
  | cons e rest ih =>
    by_cases he : e.1 = k
    · cases e; simp_all [dbDelete, dbLookup, Ne.symm h]
    · cases e; simp_all [dbDelete, dbLookup]

theorem dbLookup_append_of_none {α : Type} (k : String)
    (l1 l2 : List (String × α)) (h : dbLookup k l1 = none) :
    dbLookup k (l1 ++ l2) = dbLookup k l2 := by
  induction l1 with
  | nil => simp
  | cons e rest ih =>
    obtain ⟨k', v'⟩ := e
    by_cases he : k' = k
    · simp [dbLookup, he] at h
    · simp only [dbLookup, he, if_false, List.cons_append] at h ⊢
      simp [dbLookup, he, ih h]

theorem dbLookup_append_of_some {α : Type} (k : String) (v : α)
    (l1 l2 : List (String × α)) (h : dbLookup k l1 = some v) :
    dbLookup k (l1 ++ l2) = some v := by
  induction l1 with
  | nil => simp [dbLookup] at h
  | cons e rest ih =>
    obtain ⟨k', v'⟩ := e
    by_cases he : k' = k
    · simp only [dbLookup, he, if_true, List.cons_append] at h ⊢
      simpa using h
    · simp only [dbLookup, he, if_false, List.cons_append] at h ⊢
      simp [dbLookup, he, ih h]

theorem dbLookup_mapInsertIfAbsent_self {α : Type} (k : String) (v : α)
    (l : List (String × α)) :
    (dbLookup k (mapInsertIfAbsent k v l)).isSome = true := by
  unfold mapInsertIfAbsent
  cases h : dbLookup k l with
  | some w => simp [h]
  | none =>
    rw [dbLookup_append_of_none k l _ h]
    simp [dbLookup]

theorem dbLookup_mapInsertIfAbsent_ne {α : Type} (q k : String) (v : α)
    (l : List (String × α)) (h : q ≠ k) :
    dbLookup q (mapInsertIfAbsent k v l) = dbLookup q l := by
  unfold mapInsertIfAbsent
  cases hk : dbLookup k l with
  | some w => rfl
  | none =>
    cases hq : dbLookup q l with
    | some w => exact dbLookup_append_of_some q w l _ hq
    | none =>
      rw [dbLookup_append_of_none q l _ hq]
      simp [dbLookup, Ne.symm h]

theorem mem_setAdd {y x : String} {s : List String} :
    y ∈ setAdd x s ↔ y ∈ s ∨ y = x := by
  unfold setAdd
  by_cases h : x ∈ s
  · simp only [if_pos h]
    constructor
    · exact Or.inl
    · rintro (hy | rfl)
      · exact hy
      · exact h
  · simp [if_neg h, List.mem_append]

theorem mem_setRemove {y x : String} {s : List String} :
    y ∈ setRemove x s ↔ y ∈ s ∧ y ≠ x := by
  simp [setRemove, List.mem_filter]

theorem not_mem_setRemove_self (x : String) (s : List String) :
    x ∉ setRemove x s := by
  simp [mem_setRemove]

/-! ## Analyzer step lemmas -/

set_option maxHeartbeats 2000000 in
/-- Frame property of one analyzer step: a path different from both the
record's current and previous filename keeps its binding in the post
to-process map and its membership in the post removal set. -/
theorem handleCommitFile_frame_posts (path status previousPath : String)
    (c : Commit) (st : AnalyzerState) (q : String)
    (h1 : q ≠ path) (h2 : q ≠ previousPath) :
    dbLookup q (handleCommitFile path status previousPath c st).posts =
      dbLookup q st.posts ∧
    ((q ∈ (handleCommitFile path status previousPath c st).postsToRemove) ↔
      q ∈ st.postsToRemove) := by
  cases hcp : isPostFile path <;> cases hpp : isPostFile previousPath <;>
    cases hci : isImageFile path <;> cases hpi : isImageFile previousPath <;>
      (simp only [handleCommitFile, hcp, hpp, hci, hpi]
       split_ifs <;>
         (refine ⟨?_, ?_⟩ <;>
           simp [dbLookup_mapInsertIfAbsent_ne, dbLookup_dbDelete_ne,
             mem_setAdd, mem_setRemove, h1, h2]))

/-- Processing an "added" record for a classified post path leaves the
path bound in the to-process map and outside the removal set. -/
theorem handleCommitFile_added_post (path : String) (c : Commit)
    (st : AnalyzerState) (h : isPostFile path = true) :
    (dbLookup path (handleCommitFile path "added" "" c st).posts).isSome
      = true ∧
    path ∉ (handleCommitFile path "added" "" c st).postsToRemove := by
  have hpp : isPostFile "" = false := rfl
  have hpi : isImageFile "" = false := rfl
  cases hci : isImageFile path <;>
    (simp only [handleCommitFile, h, hpp, hci, hpi]
     split_ifs <;>
       simp_all [dbLookup_mapInsertIfAbsent_self, not_mem_setRemove_self])

/-- Processing a "removed" record for a post path that is currently in the
to-process map deletes the binding but leaves the removal set unchanged
(the guarded `Add` is skipped because the path was pending processing). -/
theorem handleCommitFile_removed_present (path : String) (c : Commit)
    (st : AnalyzerState) (h : isPostFile path = true)
    (hpresent : (dbLookup path st.posts).isSome = true) :
    dbLookup path (handleCommitFile path "removed" "" c st).posts = none ∧
    ((path ∈ (handleCommitFile path "removed" "" c st).postsToRemove) ↔
      path ∈ st.postsToRemove) := by
  obtain ⟨w, hw⟩ := Option.isSome_iff_exists.mp hpresent
  have hpp : isPostFile "" = false := rfl
  have hpi : isImageFile "" = false := rfl
  cases hci : isImageFile path <;>
    (simp only [handleCommitFile, h, hpp, hci, hpi]
     split_ifs <;>
       simp_all [dbLookup_dbDelete_self, hw])

/-- Frame property of the analyzer fold: a path untouched by every record
of a record list keeps its post-map binding and removal-set membership
across the fold. -/
theorem foldHandle_frame_posts (recs : List (CommitFile × Commit))
    (st : AnalyzerState) (q : String)
    (h : ∀ r ∈ recs, q ≠ r.1.filename ∧ q ≠ r.1.previousFilename) :
    dbLookup q (foldHandle recs st).posts = dbLookup q st.posts ∧
    ((q ∈ (foldHandle recs st).postsToRemove) ↔ q ∈ st.postsToRemove) := by
  induction recs generalizing st with
  | nil => simp [foldHandle]
  | cons r rest ih =>
    have hr := h r (List.mem_cons_self r rest)
    have hrest : ∀ x ∈ rest, q ≠ x.1.filename ∧ q ≠ x.1.previousFilename :=
      fun x hx => h x (List.mem_cons_of_mem r hx)
    have hstep := handleCommitFile_frame_posts r.1.filename r.1.status
      r.1.previousFilename r.2 st q hr.1 hr.2
    have hfold := ih
      (handleCommitFile r.1.filename r.1.status r.1.previousFilename r.2 st)
      hrest
    constructor
    · rw [foldHandle, hfold.1, hstep.1]
    · rw [foldHandle]
      exact hfold.2.trans hstep.2

/-! ## C1: add-then-remove inside one batch -/

/-- Commit adding `posts/001-a.md` (C1 scenario). -/
def c1AddCommit : Commit :=
  { sha := "c1", authorDate := 1,
    files := [{ filename := "posts/001-a.md", status := "added",
                previousFilename := "" }] }

/-- Commit removing `posts/001-a.md` (C1 scenario). -/
def c1RemoveCommit : Commit :=
  { sha := "c2", authorDate := 2,
    files := [{ filename := "posts/001-a.md", status := "removed",
                previousFilename := "" }] }

/-- Commit resolution for the C1 scenario. -/
def c1GetCommit : String → Except String Commit := fun sha =>
  if sha = "c1" then .ok c1AddCommit
  else if sha = "c2" then .ok c1RemoveCommit
  else .error "unknown commit"

/-- C1, counterexample.  The claim says: when commit 1 adds
`posts/001-a.md` and commit 2 removes it, the analyzer's final state has
the path in the removal set and absent from the to-process map.  On this
batch the analyzer ends with the path in NEITHER structure: the "removed"
transition only adds the path to the removal set when the path is not
already pending processing, and here the earlier "added" put it in the
to-process map. -/
theorem analyzer_add_then_remove_counterexample :
    ¬ (∀ st, analyzeCommitFiles c1GetCommit [c1AddCommit, c1RemoveCommit]
          = .ok st →
        "posts/001-a.md" ∈ st.postsToRemove ∧
          dbLookup "posts/001-a.md" st.posts = none) := by
  intro hclaim
  have hrun : analyzeCommitFiles c1GetCommit [c1AddCommit, c1RemoveCommit]
      = .ok emptyAnalyzerState := by rfl
  have h := (hclaim emptyAnalyzerState hrun).1
  simp [emptyAnalyzerState] at h

/-- C1 (amended): in a batch where a record adds/modifies a post path and
a later record removes it, with no other record of the batch touching that
path, the final state has the path absent from BOTH the to-process map and
the removal set: the removal deletes the pending entry but the guarded
`Add` skips the removal set because the path was pending. -/
theorem analyzer_add_then_remove_last_wins
    (st0 : AnalyzerState) (cAdd cRem : Commit) (path : String)
    (mid tail : List (CommitFile × Commit))
    (hpost : isPostFile path = true)
    (hmid : ∀ r ∈ mid, path ≠ r.1.filename ∧ path ≠ r.1.previousFilename)
    (htail : ∀ r ∈ tail, path ≠ r.1.filename ∧ path ≠ r.1.previousFilename) :
    dbLookup path (foldHandle tail (handleCommitFile path "removed" "" cRem
        (foldHandle mid (handleCommitFile path "added" "" cAdd st0)))).posts
      = none ∧
    path ∉ (foldHandle tail (handleCommitFile path "removed" "" cRem
        (foldHandle mid
          (handleCommitFile path "added" "" cAdd st0)))).postsToRemove := by
  have hAdd := handleCommitFile_added_post path cAdd st0 hpost
  have hMid := foldHandle_frame_posts mid
    (handleCommitFile path "added" "" cAdd st0) path hmid
  have hpresent : (dbLookup path (foldHandle mid
      (handleCommitFile path "added" "" cAdd st0)).posts).isSome = true := by
    rw [hMid.1]; exact hAdd.1
  have hRem := handleCommitFile_removed_present path cRem
    (foldHandle mid (handleCommitFile path "added" "" cAdd st0)) hpost hpresent
  have hTail := foldHandle_frame_posts tail
    (handleCommitFile path "removed" "" cRem
      (foldHandle mid (handleCommitFile path "added" "" cAdd st0))) path htail
  constructor
  · rw [hTail.1, hRem.1]
  · intro hmem
    exact hAdd.2 (hMid.2.mp (hRem.2.mp (hTail.2.mp hmem)))

/-- Witness for the amended C1 theorem at the spec's concrete two-commit
batch. -/
theorem analyzer_add_then_remove_last_wins_witness :
    dbLookup "posts/001-a.md"
        (foldHandle [] (handleCommitFile "posts/001-a.md" "removed" ""
          c1RemoveCommit (foldHandle []
            (handleCommitFile "posts/001-a.md" "added" "" c1AddCommit
              emptyAnalyzerState)))).posts = none ∧
    "posts/001-a.md" ∉
      (foldHandle [] (handleCommitFile "posts/001-a.md" "removed" ""
        c1RemoveCommit (foldHandle []
          (handleCommitFile "posts/001-a.md" "added" "" c1AddCommit
            emptyAnalyzerState)))).postsToRemove :=
  analyzer_add_then_remove_last_wins emptyAnalyzerState c1AddCommit
    c1RemoveCommit "posts/001-a.md" [] [] rfl
    (by intro r hr; cases hr) (by intro r hr; cases hr)

/-! ## C4: rename handling -/

/-- Rename record commit for C4: `images/a.png` renamed to
`images/b.png`. -/
def c4RenameCommit : Commit :=
  { sha := "c4", authorDate := 3,
    files := [{ filename := "images/b.png", status := "renamed",
                previousFilename := "images/a.png" }] }

/-- Commit resolution for the C4 scenario. -/
def c4GetCommit : String → Except String Commit := fun sha =>
  if sha = "c4" then .ok c4RenameCommit else .error "unknown commit"

/-- C4, counterexample.  For an image rename the code clears the CURRENT
path, not the previous one, from the image removal set
(`imagesToRemove.Remove(path)` instead of `Remove(previousPath)`), so
after renaming `images/a.png` to `images/b.png` the previous path stays in
the removal set, contradicting the claim that the previous path is absent
from the corresponding removal set. -/
theorem analyzer_rename_counterexample :
    ¬ (∀ st, analyzeCommitFiles c4GetCommit [c4RenameCommit] = .ok st →
        (dbLookup "images/b.png" st.images).isSome = true ∧
          "images/a.png" ∉ st.imagesToRemove) := by
  intro hclaim
  have hrun : analyzeCommitFiles c4GetCommit [c4RenameCommit] =
      .ok { posts := [], images := [("images/b.png", c4RenameCommit)],
            postsToRemove := [], imagesToRemove := ["images/a.png"] } := by
    rfl
  have h := (hclaim _ hrun).2
  simp at h

set_option maxHeartbeats 2000000 in
/-- C4 (amended): after the analyzer processes a rename record, (a) a
current path matching the post classifier is in the post to-process map
and the previous path is absent from the post removal set; (b) a current
path matching the image classifier is in the image to-process map and the
CURRENT path is absent from the image removal set; (c) a matching previous
image path that was not pending processing is left IN the image removal
set (the code clears only the current image path), provided it differs
from the current path. -/
theorem handleCommitFile_renamed_effects (path prev : String) (c : Commit)
    (st : AnalyzerState) :
    ((isPostFile path = true) →
      (dbLookup path
          (handleCommitFile path "renamed" prev c st).posts).isSome = true ∧
      prev ∉ (handleCommitFile path "renamed" prev c st).postsToRemove) ∧
    ((isImageFile path = true) →
      (dbLookup path
          (handleCommitFile path "renamed" prev c st).images).isSome = true ∧
      path ∉ (handleCommitFile path "renamed" prev c st).imagesToRemove) ∧
    ((isImageFile prev = true) → prev ≠ path →
      dbLookup prev st.images = none →
      prev ∈ (handleCommitFile path "renamed" prev c st).imagesToRemove) := by
  refine ⟨fun hcp => ?_, fun hci => ?_, fun hpi hne hmiss => ?_⟩
  · cases hpp : isPostFile prev <;> cases hci : isImageFile path <;>
      cases hpi : isImageFile prev <;>
        (simp only [handleCommitFile, hcp, hpp, hci, hpi]
         split_ifs <;>
           simp_all [dbLookup_mapInsertIfAbsent_self, not_mem_setRemove_self])
  · cases hcp : isPostFile path <;> cases hpp : isPostFile prev <;>
      cases hpi : isImageFile prev <;>
        (simp only [handleCommitFile, hcp, hpp, hci, hpi]
         split_ifs <;>
           simp_all [dbLookup_mapInsertIfAbsent_self, not_mem_setRemove_self])
  · cases hcp : isPostFile path <;> cases hpp : isPostFile prev <;>
      cases hci : isImageFile path <;>
        (simp only [handleCommitFile, hcp, hpp, hci, hpi]
         split_ifs <;>
           simp_all [mem_setAdd, mem_setRemove])

/-- Witness for the amended C4 theorem: the post rename
`posts/001-a.md → posts/001-b.md` and the image rename
`images/a.png → images/b.png`, both from the empty state. -/
theorem handleCommitFile_renamed_effects_witness :
    ((dbLookup "posts/001-b.md"
        (handleCommitFile "posts/001-b.md" "renamed" "posts/001-a.md"
          c4RenameCommit emptyAnalyzerState).posts).isSome = true ∧
      "posts/001-a.md" ∉
        (handleCommitFile "posts/001-b.md" "renamed" "posts/001-a.md"
          c4RenameCommit emptyAnalyzerState).postsToRemove) ∧
    ((dbLookup "images/b.png"
        (handleCommitFile "images/b.png" "renamed" "images/a.png"
          c4RenameCommit emptyAnalyzerState).images).isSome = true ∧
      "images/b.png" ∉
        (handleCommitFile "images/b.png" "renamed" "images/a.png"
          c4RenameCommit emptyAnalyzerState).imagesToRemove) ∧
    "images/a.png" ∈
      (handleCommitFile "images/b.png" "renamed" "images/a.png"
        c4RenameCommit emptyAnalyzerState).imagesToRemove :=
  ⟨(handleCommitFile_renamed_effects "posts/001-b.md" "posts/001-a.md"
      c4RenameCommit emptyAnalyzerState).1 rfl,
   (handleCommitFile_renamed_effects "images/b.png" "images/a.png"
      c4RenameCommit emptyAnalyzerState).2.1 rfl,
   (handleCommitFile_renamed_effects "images/b.png" "images/a.png"
      c4RenameCommit emptyAnalyzerState).2.2 rfl
      (by decide) rfl⟩

/-! ## C2: transactional dual-write rollback -/

/-- C2: if the filesystem write fails after the database row write
succeeded inside the transaction, `SavePost` rolls the transaction back —
the returned store equals the pre-call store exactly, so a `GetPost`
after the call sees the pre-call row (or still no row if the save was an
insert) — and the error is surfaced to the caller. -/
theorem savePost_fs_failure_rolls_back (env : Env) (s : Store) (p : Post)
    (hid : p.id ≠ "")
    (hfs : env.writeFileFails (postLocalPath p.htmlPath) = true) :
    (savePost env s p).1 = s ∧ (savePost env s p).2.isSome = true := by
  unfold savePost runInTransaction
  simp [hid, hfs]

/-- Environment whose file writes always fail (nothing else is consulted
by `SavePost`). -/
def c2Env : Env :=
  { getCommitsSince := fun _ _ => .error "unused",
    getCommitsInRange := fun _ _ => .error "unused",
    getCommit := fun _ => .error "unused",
    getFileContents := fun _ _ => .error "unused",
    render := fun _ => .error "unused",
    calculateHash := fun _ => "h",
    writeFileFails := fun _ => true,
    publishFails := fun _ => false,
    unpublishFails := fun _ => false,
    now := 10,
    mainBranchName := "main" }

/-- The post written in the C2 witness scenario. -/
def c2Post : Post :=
  { id := "001", title := "T", snippet := "S", htmlPath := "001.html",
    htmlContent := [1, 2], updatedAt := 4, publishedAt := 0, createdAt := 3 }

/-- Witness for C2: inserting into an empty store with a failing
filesystem leaves the store empty and surfaces an error. -/
theorem savePost_fs_failure_rolls_back_witness :
    (savePost c2Env { posts := [], images := [], files := [] } c2Post).1
      = { posts := [], images := [], files := [] } ∧
    (savePost c2Env { posts := [], images := [], files := [] } c2Post).2.isSome
      = true :=
  savePost_fs_failure_rolls_back c2Env
    { posts := [], images := [], files := [] } c2Post (by decide) rfl

/-! ## C7: `createdAt` immutability -/

/-- The `COALESCE(posts.created_at, excluded.created_at)` clause of the
upsert: a row whose `created_at` is already non-NULL keeps it across any
conflict update. -/
theorem upsertPostRow_preserves_createdAt (table : List (String × PostRow))
    (r old : PostRow) (t : Nat)
    (hold : dbLookup r.id table = some old) (ht : old.createdAt = some t) :
    ∃ nr, dbLookup r.id (upsertPostRow table r) = some nr ∧
      nr.createdAt = some t := by
  unfold upsertPostRow
  rw [hold]
  rw [dbLookup_dbUpdate_self, hold]
  exact ⟨_, rfl, by simp [ht]⟩

/-- C7: for a post whose row already carries a non-NULL creation
timestamp, every subsequent `SavePost` leaves `created_at` unchanged, no
matter which creation timestamp the caller supplies and whether the file
write succeeds (on failure the whole row is rolled back). -/
theorem savePost_createdAt_immutable (env : Env) (s : Store) (p : Post)
    (old : PostRow) (t : Nat)
    (hold : dbLookup p.id s.posts = some old)
    (ht : old.createdAt = some t) :
    ∃ r, dbLookup p.id (savePost env s p).1.posts = some r ∧
      r.createdAt = some t := by
  by_cases hid : p.id = ""
  · refine ⟨old, ?_, ht⟩
    simpa [savePost, hid] using hold
  · by_cases hfs : env.writeFileFails (postLocalPath p.htmlPath)
    · refine ⟨old, ?_, ht⟩
      simp [savePost, runInTransaction, hid, hfs, hold]
    · obtain ⟨nr, hnr, hnrt⟩ := upsertPostRow_preserves_createdAt s.posts
        { id := p.id, title := p.title, snippet := p.snippet,
          htmlPath := p.htmlPath, updatedAt := timeToSql p.updatedAt,
          publishedAt := timeToSql p.publishedAt,
          createdAt := timeToSql p.createdAt } old t hold ht
      refine ⟨nr, ?_, hnrt⟩
      simp only [savePost, runInTransaction, hid, hfs]
      simpa using hnr

/-- Witness for C7: updating the post `001` (row created at time 3) with a
caller-supplied creation time 9 keeps `created_at = 3`. -/
theorem savePost_createdAt_immutable_witness :
    ∃ r, dbLookup "001"
        (savePost c2Env
          { posts := [("001",
              { id := "001", title := "T", snippet := "S",
                htmlPath := "001.html", updatedAt := some 4,
                publishedAt := none, createdAt := some 3 })],
            images := [], files := [] }
          { c2Post with createdAt := 9 }).1.posts = some r ∧
      r.createdAt = some 3 :=
  savePost_createdAt_immutable c2Env
    { posts := [("001",
        { id := "001", title := "T", snippet := "S", htmlPath := "001.html",
          updatedAt := some 4, publishedAt := none, createdAt := some 3 })],
      images := [], files := [] }
    { c2Post with createdAt := 9 }
    { id := "001", title := "T", snippet := "S", htmlPath := "001.html",
      updatedAt := some 4, publishedAt := none, createdAt := some 3 }
    3 rfl rfl

/-! ## C5: image idempotence -/

/-- C5: re-processing an image whose stored record's hash equals the hash
of the freshly fetched content performs zero writes: the comparison
happens before any write and the store (rows and files alike) is returned
unchanged. -/
theorem processImageFile_unchanged_hash_noop (env : Env) (s : Store)
    (path sha : String) (content : List Nat) (existing : Image)
    (hfetch : env.getFileContents path sha = .ok content)
    (hget : getImage s path = .ok existing)
    (hhash : existing.hash = env.calculateHash content) :
    processImageFile env s path sha = s := by
  unfold processImageFile
  rw [hfetch]
  simp [hget, hhash]

/-- Environment for the C5 witness: fetching `images/a.png` at `s1` yields
byte `7`, and the (opaque) hash of any content is `"h"`. -/
def c5Env : Env :=
  { getCommitsSince := fun _ _ => .error "unused",
    getCommitsInRange := fun _ _ => .error "unused",
    getCommit := fun _ => .error "unused",
    getFileContents := fun p sha =>
      if p = "images/a.png" then
        if sha = "s1" then .ok [7] else .error "not found"
      else .error "not found",
    render := fun _ => .error "unused",
    calculateHash := fun _ => "h",
    writeFileFails := fun _ => false,
    publishFails := fun _ => false,
    unpublishFails := fun _ => false,
    now := 10,
    mainBranchName := "main" }

/-- Store holding the already-saved `images/a.png` with matching hash. -/
def c5Store : Store :=
  { posts := [],
    images := [("images/a.png",
      { path := "images/a.png", hash := "h",
        updatedAt := some 1, createdAt := some 1 })],
    files := [("images/a.png", [7])] }

/-- Witness for C5: re-processing `images/a.png` leaves the store
untouched. -/
theorem processImageFile_unchanged_hash_noop_witness :
    processImageFile c5Env c5Store "images/a.png" "s1" = c5Store :=
  processImageFile_unchanged_hash_noop c5Env c5Store "images/a.png" "s1"
    [7]
    { path := "images/a.png", hash := "h", content := [],
      updatedAt := 1, createdAt := 1 }
    rfl rfl rfl

/-! ## C10: images with equal basenames share one filesystem artifact -/

theorem dbLookup_upsertImageRow_self (table : List (String × ImageRow))
    (r : ImageRow) :
    (dbLookup r.path (upsertImageRow table r)).isSome = true := by
  unfold upsertImageRow
  cases h : dbLookup r.path table with
  | none => rw [dbLookup_append_of_none _ _ _ h]; simp [dbLookup]
  | some old => rw [dbLookup_dbUpdate_self, h]; rfl

theorem dbLookup_upsertImageRow_ne (q : String)
    (table : List (String × ImageRow)) (r : ImageRow) (h : q ≠ r.path) :
    dbLookup q (upsertImageRow table r) = dbLookup q table := by
  unfold upsertImageRow
  cases hk : dbLookup r.path table with
  | some old => rw [dbLookup_dbUpdate_ne _ _ _ _ h]
  | none =>
    cases hq : dbLookup q table with
    | some w => exact dbLookup_append_of_some _ _ _ _ hq
    | none =>
      rw [dbLookup_append_of_none _ _ _ hq]
      simp [dbLookup, Ne.symm h]

/-- Shape of a successful `SaveImage`: row upserted under the full path,
bytes written under `images/<basename>`. -/
theorem saveImage_success_eq (env : Env) (s : Store) (img : Image)
    (hpath : img.path ≠ "")
    (hw : env.writeFileFails (imageLocalPath (filepathBase img.path))
      = false) :
    (saveImage env s img).1 =
      { posts := s.posts,
        images := upsertImageRow s.images
          { path := img.path, hash := img.hash,
            updatedAt := timeToSql img.updatedAt,
            createdAt := timeToSql img.createdAt },
        files := dbInsert (imageLocalPath (filepathBase img.path))
          img.content s.files } := by
  simp [saveImage, runInTransaction, hpath, hw]

/-- Shape of `DeleteImage`: row deleted under the full path, artifact
removed under `images/<basename>`. -/
theorem deleteImage_eq (s : Store) (path : String) (hpath : path ≠ "") :
    (deleteImage s path).1 =
      { posts := s.posts, images := dbDelete path s.images,
        files := dbDelete (imageLocalPath (filepathBase path)) s.files } := by
  simp [deleteImage, runInTransaction, hpath]

/-- C10: two images with distinct repository paths but equal basenames
share one filesystem artifact: saving the second overwrites the artifact
the first one wrote, and deleting the second removes the artifact the
first one depends on, while the database keeps two independent rows keyed
by full path. -/
theorem image_basename_collision (env : Env) (s : Store) (img1 img2 : Image)
    (hne : img1.path ≠ img2.path)
    (hbase : filepathBase img1.path = filepathBase img2.path)
    (hp1 : img1.path ≠ "") (hp2 : img2.path ≠ "")
    (hw : env.writeFileFails (imageLocalPath (filepathBase img1.path))
      = false) :
    dbLookup (imageLocalPath (filepathBase img1.path))
        ((saveImage env (saveImage env s img1).1 img2).1).files
      = some img2.content ∧
    (dbLookup img1.path
        ((saveImage env (saveImage env s img1).1 img2).1).images).isSome
      = true ∧
    (dbLookup img2.path
        ((saveImage env (saveImage env s img1).1 img2).1).images).isSome
      = true ∧
    dbLookup (imageLocalPath (filepathBase img1.path))
        ((deleteImage (saveImage env (saveImage env s img1).1 img2).1
          img2.path).1).files = none ∧
    dbLookup img1.path
        ((deleteImage (saveImage env (saveImage env s img1).1 img2).1
          img2.path).1).images
      = dbLookup img1.path
          ((saveImage env (saveImage env s img1).1 img2).1).images := by
  have hw2 : env.writeFileFails (imageLocalPath (filepathBase img2.path))
      = false := by rw [← hbase]; exact hw
  have h1 := saveImage_success_eq env s img1 hp1 hw
  have h2 := saveImage_success_eq env (saveImage env s img1).1 img2 hp2 hw2
  have hdel := deleteImage_eq (saveImage env (saveImage env s img1).1 img2).1
    img2.path hp2
  refine ⟨?_, ?_, ?_, ?_, ?_⟩
  · rw [h2, hbase]
    exact dbLookup_dbInsert_self _ _ _
  · rw [h2]
    show (dbLookup img1.path (upsertImageRow
      ((saveImage env s img1).1).images _)).isSome = true
    rw [dbLookup_upsertImageRow_ne _ _ _ hne, h1]
    dsimp only
    exact dbLookup_upsertImageRow_self s.images
      { path := img1.path, hash := img1.hash,
        updatedAt := timeToSql img1.updatedAt,
        createdAt := timeToSql img1.createdAt }
  · rw [h2]
    dsimp only
    exact dbLookup_upsertImageRow_self (saveImage env s img1).1.images
      { path := img2.path, hash := img2.hash,
        updatedAt := timeToSql img2.updatedAt,
        createdAt := timeToSql img2.createdAt }
  · rw [hdel]
    show dbLookup _ (dbDelete (imageLocalPath (filepathBase img2.path)) _)
      = none
    rw [hbase]
    exact dbLookup_dbDelete_self _ _
  · rw [hdel]
    exact dbLookup_dbDelete_ne _ _ _ hne

/-- Environment for the C10 witness (no write failures). -/
def c10Env : Env :=
  { getCommitsSince := fun _ _ => .error "unused",
    getCommitsInRange := fun _ _ => .error "unused",
    getCommit := fun _ => .error "unused",
    getFileContents := fun _ _ => .error "unused",
    render := fun _ => .error "unused",
    calculateHash := fun _ => "h",
    writeFileFails := fun _ => false,
    publishFails := fun _ => false,
    unpublishFails := fun _ => false,
    now := 10,
    mainBranchName := "main" }

/-- First image of the C10 witness: `images/a/pic.png`. -/
def c10Img1 : Image :=
  { path := "images/a/pic.png", hash := "h1", content := [1],
    updatedAt := 1, createdAt := 1 }

/-- Second image of the C10 witness: `images/b/pic.png` (same basename,
different directory). -/
def c10Img2 : Image :=
  { path := "images/b/pic.png", hash := "h2", content := [2],
    updatedAt := 2, createdAt := 2 }

/-- The empty starting store of the C10 witness. -/
def c10Store : Store := { posts := [], images := [], files := [] }

/-- Witness for C10 at the two concrete colliding paths. -/
theorem image_basename_collision_witness :
    dbLookup (imageLocalPath (filepathBase c10Img1.path))
        ((saveImage c10Env (saveImage c10Env c10Store c10Img1).1
          c10Img2).1).files = some c10Img2.content ∧
    (dbLookup c10Img1.path
        ((saveImage c10Env (saveImage c10Env c10Store c10Img1).1
          c10Img2).1).images).isSome = true ∧
    (dbLookup c10Img2.path
        ((saveImage c10Env (saveImage c10Env c10Store c10Img1).1
          c10Img2).1).images).isSome = true ∧
    dbLookup (imageLocalPath (filepathBase c10Img1.path))
        ((deleteImage (saveImage c10Env (saveImage c10Env c10Store
          c10Img1).1 c10Img2).1 c10Img2.path).1).files = none ∧
    dbLookup c10Img1.path
        ((deleteImage (saveImage c10Env (saveImage c10Env c10Store
          c10Img1).1 c10Img2).1 c10Img2.path).1).images
      = dbLookup c10Img1.path
          ((saveImage c10Env (saveImage c10Env c10Store c10Img1).1
            c10Img2).1).images :=
  image_basename_collision c10Env c10Store c10Img1 c10Img2
    (by decide) rfl (by decide) (by decide) rfl

/-! ## C8: "not found" reporting and its use by callers -/

/-- Store for the C8 scenario: post `001` exists with `created_at = 5`. -/
def c8Store : Store :=
  { posts := [("001",
      { id := "001", title := "T", snippet := "S", htmlPath := "001.html",
        updatedAt := some 4, publishedAt := none, createdAt := some 5 })],
    images := [], files := [] }

/-- C8, counterexample.  `GetPost` reports a missing post with a plain
`fmt.Errorf` string and the caller branches only on `err == nil`: on a
transport failure for the EXISTING post `001` (stored `created_at = 5`)
the caller picks the commit time 9, exactly as in the genuine not-found
case — the stored creation time is discarded, so no typed not-found
distinction exists or is used to decide whether to preserve `createdAt`. -/
theorem getPost_no_typed_notfound_counterexample :
    chooseCreatedAt (getPost false c8Store "001") 9 = 9 ∧
    chooseCreatedAt (getPost true { c8Store with posts := [] } "001") 9 = 9 ∧
    (dbLookup "001" c8Store.posts).map PostRow.createdAt = some (some 5) :=
  ⟨rfl, rfl, rfl⟩

/-- C8 (amended): a missing post yields the formatted error string
`post not found: <id>` (an ordinary `error`, not a typed outcome), and the
caller's `createdAt` selection falls back to the commit time on EVERY
lookup error, transport or not-found alike.  (The row-level `COALESCE`
keeps the stored creation time regardless; see the C7 theorem.) -/
theorem getPost_notfound_plain_error (s : Store) (id : String) (m : Nat)
    (e : String) (hid : id ≠ "") (hmiss : dbLookup id s.posts = none) :
    getPost true s id = .error ("post not found: " ++ id) ∧
    chooseCreatedAt (Except.error e) m = m := by
  constructor
  · simp [getPost, hid, hmiss]
  · rfl

/-- Witness for the amended C8 theorem. -/
theorem getPost_notfound_plain_error_witness :
    getPost true { posts := [], images := [], files := [] } "001"
      = .error ("post not found: " ++ "001") ∧
    chooseCreatedAt (Except.error "transport broke") 9 = 9 :=
  getPost_notfound_plain_error { posts := [], images := [], files := [] }
    "001" 9 "transport broke" (by decide) rfl

/-! ## C6: per-unit failure isolation -/

/-- Every map entry with a well-formed post path is handed to
`processPostFile`, whatever any unit's fetch/render/persist outcome is:
the loop body never propagates a unit's failure. -/
theorem mem_upsertPostsLoop_trace (env : Env) (isMain : Bool) (p : String)
    (c : Commit) (hid : extractPostID p ≠ "") :
    ∀ (files : List (String × Commit)), (p, c) ∈ files →
      ∀ s, p ∈ (upsertPostsLoop env isMain s files).2 := by
  intro files
  induction files with
  | nil => intro hin; cases hin
  | cons pc rest ih =>
    intro hin s
    rcases List.mem_cons.mp hin with heq | htail
    · rw [← heq]
      simp only [upsertPostsLoop, hid, if_neg hid]
      exact List.mem_cons_self _ _
    · by_cases hskip : extractPostID pc.1 = ""
      · simp only [upsertPostsLoop, hskip, if_pos]
        exact ih htail s
      · simp only [upsertPostsLoop, if_neg hskip]
        exact List.mem_cons_of_mem _ (ih htail _)

/-- Every image map entry is handed to `processImageFile`, whatever any
unit's outcome is. -/
theorem mem_processImagesLoop_trace (env : Env) (q : String) (cq : Commit) :
    ∀ (imgs : List (String × Commit)), (q, cq) ∈ imgs →
      ∀ s, q ∈ (processImagesLoop env s imgs).2 := by
  intro imgs
  induction imgs with
  | nil => intro hin; cases hin
  | cons pc rest ih =>
    intro hin s
    rcases List.mem_cons.mp hin with heq | htail
    · rw [← heq]
      exact List.mem_cons_self _ _
    · exact List.mem_cons_of_mem _ (ih htail _)

/-- A failing `Unpublish` at the head of the removal loop ends the loop at
once: no later removal path of the same batch is attempted. -/
theorem unpublishLoop_fail_head (env : Env) (s : Store) (f : String)
    (rest : List String) (hfail : env.unpublishFails f = true) :
    (unpublishLoop env s (f :: rest)).2.2 = [f] := by
  unfold unpublishLoop unpublish
  by_cases hf : f = "" <;> simp [hf, hfail]

/-- C6 (amended): failures inside one post or image unit (fetch, render,
persist, publish) never prevent sibling units of the same batch from being
attempted — `upsertPosts` and the image loop traverse every entry
unconditionally — but a failure of `Unpublish` in the catch-up
`processBranch` removal loop aborts the remaining removals and all upserts
of that branch's batch (the loop returns the error). -/
theorem perUnit_failure_isolation (env : Env) (s s2 s3 : Store)
    (files imgs : List (String × Commit)) (branchName p q f : String)
    (c cq : Commit) (rest : List String)
    (hin : (p, c) ∈ files) (hid : extractPostID p ≠ "")
    (hq : (q, cq) ∈ imgs)
    (hfail : env.unpublishFails f = true) :
    p ∈ (upsertPosts env s files branchName).2 ∧
    q ∈ (processImagesLoop env s2 imgs).2 ∧
    (unpublishLoop env s3 (f :: rest)).2.2 = [f] :=
  ⟨mem_upsertPostsLoop_trace env _ p c hid files hin s,
   mem_processImagesLoop_trace env q cq imgs hq s2,
   unpublishLoop_fail_head env s3 f rest hfail⟩

/-- The C6 scenario commit: one batch removing two post files. -/
def c6Commit : Commit :=
  { sha := "c6", authorDate := 1,
    files := [{ filename := "posts/001-a.md", status := "removed",
                previousFilename := "" },
              { filename := "posts/002-b.md", status := "removed",
                previousFilename := "" }] }

/-- Environment for C6: unpublishing the first removed path fails (e.g. a
dropped database connection), everything else succeeds. -/
def c6Env : Env :=
  { getCommitsSince := fun _ _ => .ok [c6Commit],
    getCommitsInRange := fun _ _ => .error "unused",
    getCommit := fun sha => if sha = "c6" then .ok c6Commit
      else .error "unknown commit",
    getFileContents := fun _ _ => .error "unused",
    render := fun _ => .error "unused",
    calculateHash := fun _ => "h",
    writeFileFails := fun _ => false,
    publishFails := fun _ => false,
    unpublishFails := fun p => p == "posts/001-a.md",
    now := 10,
    mainBranchName := "main" }

/-- Witness for the amended C6 theorem. -/
theorem perUnit_failure_isolation_witness :
    "posts/003-c.md" ∈ (upsertPosts c6Env
        { posts := [], images := [], files := [] }
        [("posts/003-c.md", c6Commit)] "feature").2 ∧
    "images/x.png" ∈ (processImagesLoop c6Env
        { posts := [], images := [], files := [] }
        [("images/x.png", c6Commit)]).2 ∧
    (unpublishLoop c6Env { posts := [], images := [], files := [] }
        ("posts/001-a.md" :: ["posts/002-b.md"])).2.2 = ["posts/001-a.md"] :=
  perUnit_failure_isolation c6Env
    { posts := [], images := [], files := [] }
    { posts := [], images := [], files := [] }
    { posts := [], images := [], files := [] }
    [("posts/003-c.md", c6Commit)] [("images/x.png", c6Commit)]
    "feature" "posts/003-c.md" "images/x.png" "posts/001-a.md"
    c6Commit c6Commit ["posts/002-b.md"]
    (List.mem_cons_self _ _) (by decide) (List.mem_cons_self _ _) rfl

/-- C6, counterexample.  In the catch-up `processBranch`, the batch
removing `posts/001-a.md` and `posts/002-b.md` aborts after the first
unpublish fails: the sibling `posts/002-b.md` is never attempted, the
branch errors out, and the upsert/image stages are skipped — so a failure
processing one path does prevent its siblings. -/
theorem processBranch_unpublish_abort_counterexample :
    (processBranch c6Env { posts := [], images := [], files := [] } 0
        "feature").attempted = ["posts/001-a.md"] ∧
    (processBranch c6Env { posts := [], images := [], files := [] } 0
        "feature").err = some "failed to unpublish post" ∧
    "posts/002-b.md" ∉ (processBranch c6Env
        { posts := [], images := [], files := [] } 0 "feature").attempted := by
  have h : (processBranch c6Env { posts := [], images := [], files := [] } 0
      "feature").attempted = ["posts/001-a.md"] := rfl
  refine ⟨h, rfl, ?_⟩
  rw [h]
  simp

/-! ## C3: publish/unpublish versus branch and removal -/

/-- Store for the C3 scenario: post `001` is live
(`published_at = 5`). -/
def c3Store : Store :=
  { posts := [("001",
      { id := "001", title := "T", snippet := "S", htmlPath := "001.html",
        updatedAt := some 4, publishedAt := some 5, createdAt := some 3 })],
    images := [], files := [] }

/-- The commit removing `posts/001-a.md` from the main branch. -/
def c3RemoveCommit : Commit :=
  { sha := "c3", authorDate := 6,
    files := [{ filename := "posts/001-a.md", status := "removed",
                previousFilename := "" }] }

/-- Environment for C3: the push range `b0...c3` resolves to the removal
commit; nothing fails. -/
def c3Env : Env :=
  { getCommitsSince := fun _ _ => .error "unused",
    getCommitsInRange := fun b a =>
      if b = "b0" then
        if a = "c3" then .ok [c3RemoveCommit] else .error "unknown range"
      else .error "unknown range",
    getCommit := fun sha => if sha = "c3" then .ok c3RemoveCommit
      else .error "unknown commit",
    getFileContents := fun _ _ => .error "unused",
    render := fun _ => .error "unused",
    calculateHash := fun _ => "h",
    writeFileFails := fun _ => false,
    publishFails := fun _ => false,
    unpublishFails := fun _ => false,
    now := 7,
    mainBranchName := "main" }

/-- The main-branch push event deleting the post file. -/
def c3Evt : PushEvent :=
  { before := "b0", after := "c3", ref := "refs/heads/main" }

/-- C3, evaluation at the failing input.  Removing `posts/001-a.md` from
the main branch is claimed to clear the post's `publishedAt`; the handler
instead calls `Unpublish` with the FILE PATH while the SQL is
`UPDATE posts ... WHERE id = ?` (the interface parameter is `postID`), so
zero rows match: after the push the row of post `001` still carries
`published_at = 5` and the handler reports no error. -/
theorem handlePushEvent_removal_does_not_unpublish :
    (handlePushEvent c3Env c3Store c3Evt).2 = none ∧
    dbLookup "001" (handlePushEvent c3Env c3Store c3Evt).1.posts =
      some { id := "001", title := "T", snippet := "S",
             htmlPath := "001.html", updatedAt := some 4,
             publishedAt := some 5, createdAt := some 3 } :=
  ⟨rfl, rfl⟩

end Goblog
